import Mathlib

/-
Shallow embedding of the snarkVM fragments under verification:

1. `eval/src/setup/instruction/array_slice_get.rs`
   (`EvaluatorState::evaluate_array_slice_get`): the array-slice opcode
   handler of the constraint-emission core, with its constant fast path
   and its oblivious-scan path.
2. `dpc/src/testnet1/transaction/transaction.rs` (`Transaction`,
   `transaction_id`, the `ToBytes` / `FromBytes` implementations and the
   derived `PartialEq` that ignores four fields).

Modelling conventions:
* Rust `usize` arithmetic is modelled on `Nat` with explicit wrapping
  modulo `2^64` (`wadd`, `wsub`), the behaviour of a release build.
* Rust panics (`unwrap` on a missing operand, range-slice indexing with
  `start > end`, `windows(0)`) are the explicit outcome `crash`, kept
  distinct from recoverable `Result::Err` values, which are `err`.
* Constraint emission is counted abstractly: each constraint-emitting
  gadget call (`enforce_sub`, `enforce_equal`, `array_bounds_check`,
  `evaluate_eq`, `conditionally_select`) counts as one unit.  The claims
  only distinguish "zero constraints" from "some constraints".
-/

/-- The modulus of Rust `usize` on a 64-bit target. -/
def USIZE : Nat := 18446744073709551616

/-- The modulus of Rust `u32` (the declared width used by the oblivious
length check and the scan comparisons). -/
def U32MOD : Nat := 4294967296

/-- Wrapping `usize` addition, as in `from + length` in the source. -/
def wadd (a b : Nat) : Nat := (a + b) % USIZE

/-- Wrapping `usize` subtraction, as in `right - left` and `to - from`
in the source (release-build two's-complement wrapping). -/
def wsub (a b : Nat) : Nat := (a + USIZE - b % USIZE) % USIZE

/-- Modelled from the spec: an IR integer operand is either a
compile-time constant or a secret witness; the concrete `Integer` type of
the eval crate is not among the provided sources.  A witness carries the
prover-side value it opens to, which the constraint semantics of the
oblivious scan compares against candidate positions. -/
inductive IrInt where
  | const (n : Nat)
  | witness (w : Nat)
deriving Repr, DecidableEq

/-- Modelled from the spec: `Integer::to_usize` yields the value of a
compile-time constant and `none` for a witness (§3: payloads are either
a constant or an opaque witness handle). -/
def IrInt.toUsize : IrInt → Option Nat
  | .const n => some n
  | .witness _ => none

/-- The prover-side value of an integer operand (used by the denotational
semantics of the oblivious scan). -/
def IrInt.value : IrInt → Nat
  | .const n => n
  | .witness w => w

/-- A circuit-level datum (`ConstrainedValue` in the source): boolean,
integer, or fixed-length array.  Field elements are irrelevant to the
claims and omitted. -/
inductive Value where
  | boolean (b : Bool)
  | integer (i : IrInt)
  | array (elts : List Value)

/-- Modelled from the spec (§4.1): `extract_array` projects a Value into
an array, failing with a typed error (here `none`) on any other
variant. -/
def Value.extract_array : Value → Option (List Value)
  | .array l => some l
  | _ => none

/-- Modelled from the spec (§4.1): `extract_integer` projects a Value
into an integer, failing with a typed error on any other variant. -/
def Value.extract_integer : Value → Option IrInt
  | .integer i => some i
  | _ => none

/-- The recoverable error values `evaluate_array_slice_get` can return
(`anyhow` / `ArrayError` / `ValueError` in the source, identified by
which failure produced them). -/
inductive EvalError where
  | unsetRegister
  | illegalArrayValue
  | illegalFromValue
  | illegalToValue
  | illegalLengthValue
  | nonConstLength
  | invalidSliceLength
  | indexOutOfBounds (index len : Nat)
  | lengthOutOfBounds
deriving Repr, DecidableEq

/-- Outcome of the handler: a result value together with the number of
constraint-emitting operations performed, a recoverable error (also with
the number of constraint-emitting operations performed before failing),
or a Rust panic. -/
inductive Outcome where
  | ok (result : List Value) (constraints : Nat)
  | err (e : EvalError) (constraints : Nat)
  | crash

/-- Lines 58–68 of `array_slice_get.rs`: complete the pair of slice
bounds from whichever of `from`/`to` is a compile-time constant.
`(some f, none)` uses `from + length` (wrapping `usize` addition);
`(none, some t)` first requires `length ≤ to` (else the recoverable
invalid-slice-length error) and uses `to - length`; `(none, none)` means
the oblivious path. -/
def const_dimensions (fromR toR : IrInt) (length : Nat) :
    Except EvalError (Option (Nat × Nat)) :=
  match fromR.toUsize, toR.toUsize with
  | some f, some t => .ok (some (f, t))
  | some f, none => .ok (some (f, wadd f length))
  | none, some t =>
      if t < length then .error .invalidSliceLength
      else .ok (some (t - length, t))
  | none, none => .ok none

/-- Rust `slice::windows(n)` for `n > 0`: all contiguous sub-sequences of
length `n`, in order of their start position. -/
def windowsL (A : List Value) (n : Nat) : List (List Value) :=
  (List.range (A.length + 1 - n)).map (fun i => (A.drop i).take n)

/-- Lines 78–136 of `array_slice_get.rs`: the oblivious path, taken when
both bounds are witnesses.  In source order: `enforce_sub` and
`enforce_equal` emit the length-check constraints (2 units); the
`array.len().try_into::<u32>()` conversion fails recoverably when the
length exceeds `u32::MAX`; `array_bounds_check` emits constraints
(1 unit); `array.windows(length)` panics when `length = 0`; then the scan
loop `for i in 0..length` pairs each `i` with the next window (stopping
at whichever runs out first) and folds
`result := select(from == i, window_i, result)` starting from the empty
array (2 units per iteration).

Modelled from the spec for the parts outside the provided sources: the
gadgets `evaluate_eq` and `conditionally_select` denote value-level
equality (against the candidate position reduced to the declared `u32`
width) and value-level choice (§4.4.2c, §9), and the emitted length/bounds
constraints do not alter the stored result value. -/
def obliviousPath (A : List Value) (fromR : IrInt) (length : Nat) : Outcome :=
  if A.length ≥ U32MOD then .err .lengthOutOfBounds 2
  else if length = 0 then .crash
  else
    let ws := windowsL A length
    let fromVal := fromR.value % U32MOD
    let result := ((List.range length).zip ws).foldl
      (fun acc p => if fromVal = p.1 % U32MOD then p.2 else acc) []
    .ok result (3 + 2 * min length ws.length)

/-- Lines 58–137 of `array_slice_get.rs`: the slice logic of
`evaluate_array_slice_get` once the four operands have been resolved.
On the constant path the checks `right - left != length` (wrapping
`usize` subtraction) and `right > array.len()` return recoverable errors
with zero constraints emitted; the indexing `array[left..right]` panics
when `left > right`; otherwise the literal sub-sequence is returned with
zero constraints. -/
def sliceGetCore (A : List Value) (fromR toR : IrInt) (length : Nat) : Outcome :=
  match const_dimensions fromR toR length with
  | .error e => .err e 0
  | .ok (some (left, right)) =>
      if wsub right left ≠ length then .err .invalidSliceLength 0
      else if right > A.length then .err (.indexOutOfBounds right A.length) 0
      else if left > right then .crash
      else .ok ((A.drop left).take (right - left)) 0
  | .ok none => obliviousPath A fromR length

/-- Modelled from the spec (§4.1): operand resolution looks up the
referenced register and fails with a typed error when it is unset; the
concrete `resolve` of the eval crate is not among the provided sources.
Operands are register identifiers. -/
def resolveOperand (registers : Nat → Option Value) (r : Nat) : Option Value :=
  registers r

/-- Lines 25–139 of `array_slice_get.rs`: the full handler.  Each
`values.get(k).unwrap()` panics when operand `k` is missing; each
resolution / projection failure is a recoverable typed error; a
non-constant `length` is the recoverable "cannot have non-const array
length" error; then the slice logic `sliceGetCore` runs.  (The final
`self.store(*destination, out)` is modelled by the result list carried
in the `ok` outcome.) -/
def evaluate_array_slice_get (registers : Nat → Option Value)
    (values : List Nat) : Outcome :=
  match values[0]? with
  | none => .crash
  | some r0 =>
  match resolveOperand registers r0 with
  | none => .err .unsetRegister 0
  | some v0 =>
  match v0.extract_array with
  | none => .err .illegalArrayValue 0
  | some A =>
  match values[1]? with
  | none => .crash
  | some r1 =>
  match resolveOperand registers r1 with
  | none => .err .unsetRegister 0
  | some v1 =>
  match v1.extract_integer with
  | none => .err .illegalFromValue 0
  | some fromR =>
  match values[2]? with
  | none => .crash
  | some r2 =>
  match resolveOperand registers r2 with
  | none => .err .unsetRegister 0
  | some v2 =>
  match v2.extract_integer with
  | none => .err .illegalToValue 0
  | some toR =>
  match values[3]? with
  | none => .crash
  | some r3 =>
  match resolveOperand registers r3 with
  | none => .err .unsetRegister 0
  | some v3 =>
  match v3.extract_integer with
  | none => .err .illegalLengthValue 0
  | some lenR =>
  match lenR.toUsize with
  | none => .err .nonConstLength 0
  | some length => sliceGetCore A fromR toR length

/-- Every operand position actually present in the (possibly too
short) operand list references a register holding a value of the kind
the handler expects there: an array at position 0, integers at
positions 1–3.  Under this condition none of the recoverable
resolution / projection errors can fire before a missing
`values.get(k)` is reached. -/
def presentOperandsOk (registers : Nat → Option Value)
    (values : List Nat) : Prop :=
  (∀ r, values[0]? = some r → ∃ l, registers r = some (Value.array l)) ∧
  (∀ r, values[1]? = some r → ∃ i, registers r = some (Value.integer i)) ∧
  (∀ r, values[2]? = some r → ∃ i, registers r = some (Value.integer i)) ∧
  (∀ r, values[3]? = some r → ∃ i, registers r = some (Value.integer i))

/-
Embedding of `dpc/src/testnet1/transaction/transaction.rs`.

Component types (serial numbers, commitments, digests, proofs,
signatures, encrypted records) are opaque to this file's sources: they
are carried here as their serialized little-endian byte strings
(`List Nat`, each entry a byte).  Modelled from the spec (§6): each
component has a fixed serialized width, recorded in `TxFormat`, since
the concrete `CanonicalSerialize` / `FromBytes` component codecs are not
among the provided sources.  The memorandum is 32 bytes, the value
balance 8 bytes (two's-complement i64, carried as its representative
below `2^64`), the network identifier 1 byte.
-/

/-- The `Transaction` struct, fields in declaration order of the
source. -/
structure Transaction where
  network : Nat
  ledger_digest : List Nat
  old_serial_numbers : List (List Nat)
  new_commitments : List (List Nat)
  program_commitment : List Nat
  local_data_root : List Nat
  value_balance : Nat
  signatures : List (List Nat)
  encrypted_records : List (List Nat)
  transaction_proof : List Nat
  memorandum : List Nat
  inner_circuit_id : List Nat
deriving Repr, DecidableEq

/-- The derived `PartialEq` of `Transaction`: the `derivative` attribute
marks `program_commitment`, `local_data_root`, `signatures` and
`transaction_proof` with `PartialEq = "ignore"`, so equality compares
only the remaining eight fields, in declaration order. -/
def txEq (a b : Transaction) : Bool :=
  a.network == b.network &&
  a.ledger_digest == b.ledger_digest &&
  a.old_serial_numbers == b.old_serial_numbers &&
  a.new_commitments == b.new_commitments &&
  a.value_balance == b.value_balance &&
  a.encrypted_records == b.encrypted_records &&
  a.memorandum == b.memorandum &&
  a.inner_circuit_id == b.inner_circuit_id

/-- Lines 142–154 of the source: the hash pre-image is built by
extending an initially empty byte vector with the serialized bytes of
each old serial number, then of each new commitment, then with the
memorandum. -/
def txPreimage (tx : Transaction) : List Nat :=
  (tx.new_commitments.foldl (fun acc cm => acc ++ cm)
    (tx.old_serial_numbers.foldl (fun acc sn => acc ++ sn) []))
  ++ tx.memorandum

/-- Lines 142–161 of the source: `transaction_id` hashes the pre-image
with BLAKE2s (abstracted as the parameter `h`) and copies the digest
into a fixed `[0u8; 32]` buffer; `copy_from_slice` panics (here `none`)
unless the digest is exactly 32 bytes long. -/
def transaction_id (h : List Nat → List Nat) (tx : Transaction) :
    Option (List Nat) :=
  let digest := h (txPreimage tx)
  if digest.length = 32 then some digest else none

/-- Little-endian byte encoding of a value on `k` bytes (the i64
`write_le` of the value balance writes its 8 two's-complement bytes). -/
def toBytesLE : Nat → Nat → List Nat
  | 0, _ => []
  | k + 1, v => (v % 256) :: toBytesLE k (v / 256)

/-- Little-endian byte decoding, inverse of `toBytesLE` on values that
fit. -/
def fromBytesLE : List Nat → Nat
  | [] => 0
  | b :: bs => b + 256 * fromBytesLE bs

/-- Lines 213–245 of the source (`ToBytes::write_le`): the serialized
transaction is the concatenation, in source order, of every old serial
number, every new commitment, the memorandum, the ledger digest, the
inner circuit id, the transaction proof, the program commitment, the
local data root, the 8-byte value balance, the 1-byte network id, every
signature, and every encrypted record. -/
def write_le (tx : Transaction) : List Nat :=
  tx.old_serial_numbers.foldl (fun acc sn => acc ++ sn) []
  ++ tx.new_commitments.foldl (fun acc cm => acc ++ cm) []
  ++ tx.memorandum
  ++ tx.ledger_digest
  ++ tx.inner_circuit_id
  ++ tx.transaction_proof
  ++ tx.program_commitment
  ++ tx.local_data_root
  ++ toBytesLE 8 tx.value_balance
  ++ [tx.network % 256]
  ++ tx.signatures.foldl (fun acc sg => acc ++ sg) []
  ++ tx.encrypted_records.foldl (fun acc er => acc ++ er) []

/-- Modelled from the spec (§6): the fixed serialized widths of the
opaque component types and the record counts
`NUM_INPUT_RECORDS` / `NUM_OUTPUT_RECORDS` of the `Testnet1Components`
instantiation. -/
structure TxFormat where
  numInputRecords : Nat
  numOutputRecords : Nat
  snLen : Nat
  cmLen : Nat
  dgLen : Nat
  icLen : Nat
  pfLen : Nat
  pcLen : Nat
  lrLen : Nat
  sgLen : Nat
  erLen : Nat
deriving Repr, DecidableEq

/-- Outcome of `FromBytes::read_le`: a transaction plus unconsumed
bytes, a recoverable io error (the `?` propagation paths), or a Rust
panic (the `unwrap` on deserializing an old serial number). -/
inductive ReadResult where
  | ok (tx : Transaction) (rest : List Nat)
  | err
  | crash
deriving Repr, DecidableEq

/-- Reading one fixed-width component from the byte stream: fails when
fewer than `w` bytes remain. -/
def readN (w : Nat) (s : List Nat) : Option (List Nat × List Nat) :=
  if w ≤ s.length then some (s.take w, s.drop w) else none

/-- Reading `count` fixed-width components in sequence. -/
def readMany (count w : Nat) (s : List Nat) :
    Option (List (List Nat) × List Nat) :=
  match count with
  | 0 => some ([], s)
  | c + 1 =>
    match readN w s with
    | none => none
    | some (x, rest) =>
      match readMany c w rest with
      | none => none
      | some (xs, rest2) => some (x :: xs, rest2)

/-- Reading the 1-byte network identifier. -/
def read1 (s : List Nat) : Option (Nat × List Nat) :=
  match s with
  | [] => none
  | b :: rest => some (b, rest)

/-- Lines 247–311 of the source (`FromBytes::read_le`): fields are read
back in the same order `write_le` wrote them.  The old serial numbers
are deserialized with `.unwrap()` — a failure there is a panic
(`crash`) — while every other field propagates its failure with `?`
(`err`). -/
def read_le (fmt : TxFormat) (s : List Nat) : ReadResult :=
  match readMany fmt.numInputRecords fmt.snLen s with
  | none => .crash
  | some (sns, s1) =>
  match readMany fmt.numOutputRecords fmt.cmLen s1 with
  | none => .err
  | some (cms, s2) =>
  match readN 32 s2 with
  | none => .err
  | some (memo, s3) =>
  match readN fmt.dgLen s3 with
  | none => .err
  | some (dg, s4) =>
  match readN fmt.icLen s4 with
  | none => .err
  | some (ic, s5) =>
  match readN fmt.pfLen s5 with
  | none => .err
  | some (pf, s6) =>
  match readN fmt.pcLen s6 with
  | none => .err
  | some (pc, s7) =>
  match readN fmt.lrLen s7 with
  | none => .err
  | some (lr, s8) =>
  match readN 8 s8 with
  | none => .err
  | some (vb, s9) =>
  match read1 s9 with
  | none => .err
  | some (nw, s10) =>
  match readMany fmt.numInputRecords fmt.sgLen s10 with
  | none => .err
  | some (sgs, s11) =>
  match readMany fmt.numOutputRecords fmt.erLen s11 with
  | none => .err
  | some (ers, s12) =>
    .ok { network := nw
          ledger_digest := dg
          old_serial_numbers := sns
          new_commitments := cms
          program_commitment := pc
          local_data_root := lr
          value_balance := fromBytesLE vb
          signatures := sgs
          encrypted_records := ers
          transaction_proof := pf
          memorandum := memo
          inner_circuit_id := ic } s12

/-- A transaction whose field vectors are sized to the format: the
record counts and every component width match, the memorandum is 32
bytes, the value balance is a representable i64 bit pattern, and the
network identifier is one byte. -/
def ValidTx (fmt : TxFormat) (tx : Transaction) : Prop :=
  tx.old_serial_numbers.length = fmt.numInputRecords ∧
  (∀ sn ∈ tx.old_serial_numbers, sn.length = fmt.snLen) ∧
  tx.new_commitments.length = fmt.numOutputRecords ∧
  (∀ cm ∈ tx.new_commitments, cm.length = fmt.cmLen) ∧
  tx.memorandum.length = 32 ∧
  tx.ledger_digest.length = fmt.dgLen ∧
  tx.inner_circuit_id.length = fmt.icLen ∧
  tx.transaction_proof.length = fmt.pfLen ∧
  tx.program_commitment.length = fmt.pcLen ∧
  tx.local_data_root.length = fmt.lrLen ∧
  tx.value_balance < 2 ^ 64 ∧
  tx.network < 256 ∧
  tx.signatures.length = fmt.numInputRecords ∧
  (∀ sg ∈ tx.signatures, sg.length = fmt.sgLen) ∧
  tx.encrypted_records.length = fmt.numOutputRecords ∧
  (∀ er ∈ tx.encrypted_records, er.length = fmt.erLen)

instance (fmt : TxFormat) (tx : Transaction) : Decidable (ValidTx fmt tx) := by
  unfold ValidTx
  infer_instance

/-- A concrete transaction used to instantiate the transaction claims
(two input records, one output record, every opaque component one byte
wide). -/
def txA : Transaction where
  network := 1
  ledger_digest := [2]
  old_serial_numbers := [[3], [4]]
  new_commitments := [[5]]
  program_commitment := [6]
  local_data_root := [7]
  value_balance := 9
  signatures := [[10], [11]]
  encrypted_records := [[12]]
  transaction_proof := [13]
  memorandum := List.replicate 32 0
  inner_circuit_id := [14]

/-- `txA` with the transaction proof, the signatures, the program
commitment and the local-data root — exactly the four fields the
derived `PartialEq` ignores — replaced. -/
def txB : Transaction :=
  { txA with
    transaction_proof := [99]
    signatures := [[98], [97]]
    program_commitment := [96]
    local_data_root := [95] }

/-- The format matching `txA`. -/
def fmtA : TxFormat where
  numInputRecords := 2
  numOutputRecords := 1
  snLen := 1
  cmLen := 1
  dgLen := 1
  icLen := 1
  pfLen := 1
  pcLen := 1
  lrLen := 1
  sgLen := 1
  erLen := 1

/-
Helper lemmas (shared; not tied to any single claim).
-/

/-- Wrapping `usize` subtraction agrees with mathematical subtraction
when no underflow occurs and the minuend is representable. -/
theorem wsub_of_le (l r : Nat) (h1 : l ≤ r) (h2 : r < USIZE) :
    wsub r l = r - l := by
  have hl : l % USIZE = l := Nat.mod_eq_of_lt (lt_of_le_of_lt h1 h2)
  have h3 : r + USIZE - l = (r - l) + USIZE := by omega
  unfold wsub
  rw [hl, h3, Nat.add_mod_right, Nat.mod_eq_of_lt (by omega)]

/-- A left fold extending an accumulator list is the accumulator
followed by the flattened list. -/
theorem foldl_append_eq {α : Type} (l : List (List α)) (acc : List α) :
    l.foldl (fun a s => a ++ s) acc = acc ++ l.foldr (fun s a => s ++ a) [] := by
  induction l generalizing acc with
  | nil => simp
  | cons x xs ih => simp [ih, List.append_assoc]

/-- `readN` consumes exactly a block of its width. -/
theorem readN_append (w : Nat) (l r : List Nat) (h : l.length = w) :
    readN w (l ++ r) = some (l, r) := by
  subst h
  simp [readN, List.take_left, List.drop_left]

/-- `readMany` consumes exactly a flattened list of blocks of its
width. -/
theorem readMany_flat (w : Nat) (xs : List (List Nat)) (r : List Nat)
    (h : ∀ x ∈ xs, x.length = w) :
    readMany xs.length w (xs.foldr (fun s a => s ++ a) [] ++ r) = some (xs, r) := by
  induction xs with
  | nil => simp [readMany]
  | cons x t ih =>
      have hx : x.length = w := h x (by simp)
      have ht : ∀ y ∈ t, y.length = w := fun y hy => h y (by simp [hy])
      simp only [List.length_cons, List.foldr_cons, readMany, List.append_assoc,
        readN_append w x _ hx]
      rw [ih ht]

/-- `toBytesLE` always produces exactly `k` bytes. -/
theorem toBytesLE_length (k v : Nat) : (toBytesLE k v).length = k := by
  induction k generalizing v with
  | zero => rfl
  | succ n ih => simp [toBytesLE, ih]

/-- Little-endian round trip for values that fit in `k` bytes. -/
theorem fromBytesLE_toBytesLE (k v : Nat) (h : v < 256 ^ k) :
    fromBytesLE (toBytesLE k v) = v := by
  induction k generalizing v with
  | zero => simp [toBytesLE, fromBytesLE]; omega
  | succ n ih =>
      have hlt : v / 256 < 256 ^ n := by
        rw [Nat.div_lt_iff_lt_mul (by norm_num)]
        calc v < 256 ^ (n + 1) := h
        _ = 256 ^ n * 256 := by ring
      simp [toBytesLE, fromBytesLE, ih (v / 256) hlt]
      omega

/-
Claim theorems.
-/

/-- C2: for every array `A` and constant indices with
`0 ≤ left ≤ right ≤ A.length` and `right - left = length`,
`evaluate_array_slice_get` with constant `from = left`, `to = right`
returns exactly the literal sub-sequence `A[left..right]` and emits zero
constraints (the constant fast path).  The bound `right < USIZE` records
that the constants are `usize` values. -/
theorem slice_const_fast_path (A : List Value) (left right length : Nat)
    (h1 : left ≤ right) (h2 : right ≤ A.length) (h3 : right - left = length)
    (h4 : right < USIZE) :
    sliceGetCore A (.const left) (.const right) length =
      .ok ((A.drop left).take (right - left)) 0 := by
  have hw : wsub right left = length := by rw [wsub_of_le left right h1 h4, h3]
  simp only [sliceGetCore, const_dimensions, IrInt.toUsize, hw]
  simp [Nat.not_lt.mpr h2, Nat.not_lt.mpr h1, h3]

/-- Witness for C2, the spec's §8 scenario: `A = [a, b, c, d]`, constant
`from = 1`, `to = 3`, `length = 2` gives `[b, c]` with zero
constraints. -/
theorem slice_const_fast_path_witness :
    sliceGetCore
      [Value.integer (.const 10), Value.integer (.const 20),
       Value.integer (.const 30), Value.integer (.const 40)]
      (.const 1) (.const 3) 2 =
      .ok [Value.integer (.const 20), Value.integer (.const 30)] 0 := by
  have h := slice_const_fast_path
    [Value.integer (.const 10), Value.integer (.const 20),
     Value.integer (.const 30), Value.integer (.const 40)]
    1 3 2 (by decide) (by decide) (by decide) (by decide)
  simpa using h

/-- C3: on the constant fast path (both bounds resolved to constants
`f`, `t`), the handler fails with the invalid-slice-length error when
the computed difference `right - left` (wrapping `usize` subtraction,
which is what the source computes — also when `to < from`) differs from
`length`, and with the index-out-of-bounds error when the difference
matches but `right` exceeds the array length; both failures are
recoverable error returns with zero constraints emitted, never a
panic. -/
theorem slice_const_error_paths (A : List Value) (f t length : Nat) :
    (wsub t f ≠ length →
      sliceGetCore A (.const f) (.const t) length = .err .invalidSliceLength 0) ∧
    (wsub t f = length → A.length < t →
      sliceGetCore A (.const f) (.const t) length =
        .err (.indexOutOfBounds t A.length) 0) := by
  constructor
  · intro hne
    simp [sliceGetCore, const_dimensions, IrInt.toUsize, hne]
  · intro heq hoob
    simp [sliceGetCore, const_dimensions, IrInt.toUsize, heq, hoob]

/-- Witness for C3: one instance with `to < from` (the wrapped
difference `3 - 5` cannot equal `7`, so the recoverable
invalid-slice-length error is returned), and one out-of-bounds
instance. -/
theorem slice_const_error_paths_witness :
    sliceGetCore [] (.const 5) (.const 3) 7 = .err .invalidSliceLength 0 ∧
    sliceGetCore [] (.const 0) (.const 2) 2 = .err (.indexOutOfBounds 2 0) 0 :=
  ⟨(slice_const_error_paths [] 5 3 7).1 (by decide),
   (slice_const_error_paths [] 0 2 2).2 (by decide) (by decide)⟩

/-- C4: with a secret `from` and a constant `to`, the handler fails with
the invalid-slice-length error — before any constraint is emitted (the
count in the error outcome is 0) — when `to < length`; otherwise it
resolves the constant pair `left = to - length`, `right = to` and takes
the constant path. -/
theorem slice_secret_from_const_to (A : List Value) (w t length : Nat) :
    (t < length →
      sliceGetCore A (.witness w) (.const t) length = .err .invalidSliceLength 0) ∧
    (length ≤ t →
      const_dimensions (.witness w) (.const t) length = .ok (some (t - length, t))) := by
  constructor
  · intro hlt
    simp [sliceGetCore, const_dimensions, IrInt.toUsize, hlt]
  · intro hle
    simp [const_dimensions, IrInt.toUsize, Nat.not_lt.mpr hle]

/-- Witness for C4: `to = 1 < length = 2` gives the recoverable
invalid-slice-length error with zero constraints; `to = 3 ≥ length = 2`
resolves the constant pair `(1, 3)`. -/
theorem slice_secret_from_const_to_witness :
    sliceGetCore [] (.witness 0) (.const 1) 2 = .err .invalidSliceLength 0 ∧
    const_dimensions (.witness 0) (.const 3) 2 = .ok (some (1, 3)) :=
  ⟨(slice_secret_from_const_to [] 0 1 2).1 (by decide),
   (slice_secret_from_const_to [] 0 3 2).2 (by decide)⟩

/-- Counterexample for C5: with constant `from = usize::MAX`, secret
`to` and `length = 1` on a one-element array, `from + length` exceeds
the array length, yet the handler does not fail with an out-of-bounds
error: the wrapping addition produces `to = 0`, the wrapped difference
check passes, and the slice indexing `array[left..right]` with
`left > right` panics. -/
theorem slice_const_from_overflow_cex :
    USIZE - 1 + 1 > List.length [Value.integer (.const 0)] ∧
    sliceGetCore [Value.integer (.const 0)] (.const (USIZE - 1)) (.witness 0) 1 =
      .crash :=
  ⟨by decide, rfl⟩

/-- C5 (amended): with constant `from`, secret `to` and fixed `length`,
provided `from + length` does not overflow `usize`, the handler
computes `to = from + length`, falls through to the constant-checked
bounds test, and fails with the index-out-of-bounds error whenever
`from + length > A.length`. -/
theorem slice_const_from_secret_to_amended (A : List Value) (f w length : Nat)
    (hov : f + length < USIZE) :
    const_dimensions (.const f) (.witness w) length = .ok (some (f, f + length)) ∧
    (A.length < f + length →
      sliceGetCore A (.const f) (.witness w) length =
        .err (.indexOutOfBounds (f + length) A.length) 0) := by
  have hadd : wadd f length = f + length := Nat.mod_eq_of_lt hov
  constructor
  · simp [const_dimensions, IrInt.toUsize, hadd]
  · intro hoob
    have hw : wsub (f + length) f = length := by
      rw [wsub_of_le f (f + length) (Nat.le_add_right f length) hov]
      omega
    simp [sliceGetCore, const_dimensions, IrInt.toUsize, hadd, hw, hoob]

/-- Witness for the amended C5: `from = 0`, `length = 2` on the empty
array resolves the pair `(0, 2)` and fails with the out-of-bounds
error. -/
theorem slice_const_from_secret_to_witness :
    const_dimensions (.const 0) (.witness 0) 2 = .ok (some (0, 2)) ∧
    sliceGetCore [] (.const 0) (.witness 0) 2 = .err (.indexOutOfBounds 2 0) 0 :=
  ⟨(slice_const_from_secret_to_amended [] 0 0 2 (by decide)).1,
   (slice_const_from_secret_to_amended [] 0 0 2 (by decide)).2 (by decide)⟩

/-- C1 (code bug): on the oblivious path (both bounds secret), the scan
loop `for i in 0..length` considers only the first `length` candidate
start positions instead of every position in
`0 .. A.length - length + 1`.  On `A = [a, b, c, d]` with `length = 2`
and a secret `from` opening to `2` (a valid start: `2 + 2 ≤ 4`), no
selector fires and the stored result is the initial empty array rather
than `A[2..4]`. -/
theorem slice_oblivious_scan_misses_position_two :
    sliceGetCore
      [Value.integer (.const 10), Value.integer (.const 20),
       Value.integer (.const 30), Value.integer (.const 40)]
      (.witness 2) (.witness 9) 2 = .ok [] 7 ∧
    (([Value.integer (.const 10), Value.integer (.const 20),
       Value.integer (.const 30), Value.integer (.const 40)].drop 2).take 2 ≠ []) := by
  refine ⟨rfl, ?_⟩
  simp

/-- Counterexample for C10: an `ArraySliceGet` instruction with a single
operand referencing an unset register returns a recoverable typed error
instead of panicking — so "fewer than four operand entries" does not
always reach the `unwrap` panic. -/
theorem slice_few_operands_cex :
    List.length [0] < 4 ∧
    evaluate_array_slice_get (fun _ => none) [0] = .err .unsetRegister 0 ∧
    Outcome.err .unsetRegister 0 ≠ Outcome.crash :=
  ⟨by decide, rfl, fun h => Outcome.noConfusion h⟩

/-- C10 (amended): with fewer than four operand entries the handler
never returns a result — it either panics or returns a typed operand
error — and it panics via `unwrap` on the first missing
`values.get(k)` whenever every present operand resolves and
type-checks (`presentOperandsOk`); in particular it always panics on
an empty operand list, where `presentOperandsOk` holds vacuously.
Only when an earlier present operand fails to resolve or project does
it return that typed error instead. -/
theorem slice_few_operands_amended (registers : Nat → Option Value)
    (values : List Nat) (h : values.length < 4) :
    (evaluate_array_slice_get registers values = .crash ∨
      ∃ e c, evaluate_array_slice_get registers values = .err e c) ∧
    (presentOperandsOk registers values →
      evaluate_array_slice_get registers values = .crash) := by
  constructor
  · cases ho : evaluate_array_slice_get registers values with
    | crash => exact Or.inl rfl
    | err e c => exact Or.inr ⟨e, c, rfl⟩
    | ok res c =>
        exfalso
        rcases values with _ | ⟨a, _ | ⟨b, _ | ⟨c', _ | ⟨d, t⟩⟩⟩⟩
        · exact Outcome.noConfusion ho
        · simp only [evaluate_array_slice_get, resolveOperand,
            List.getElem?_cons_zero, List.getElem?_cons_succ, List.getElem?_nil] at ho
          repeat' split at ho
          all_goals exact Outcome.noConfusion ho
        · simp only [evaluate_array_slice_get, resolveOperand,
            List.getElem?_cons_zero, List.getElem?_cons_succ, List.getElem?_nil] at ho
          repeat' split at ho
          all_goals exact Outcome.noConfusion ho
        · simp only [evaluate_array_slice_get, resolveOperand,
            List.getElem?_cons_zero, List.getElem?_cons_succ, List.getElem?_nil] at ho
          repeat' split at ho
          all_goals exact Outcome.noConfusion ho
        · simp only [List.length_cons] at h
          omega
  · intro hok
    obtain ⟨hk0, hk1, hk2, _⟩ := hok
    rcases values with _ | ⟨a, _ | ⟨b, _ | ⟨c', _ | ⟨d, t⟩⟩⟩⟩
    · rfl
    · obtain ⟨l, hl⟩ := hk0 a (by simp)
      simp [evaluate_array_slice_get, resolveOperand, hl, Value.extract_array]
    · obtain ⟨l, hl⟩ := hk0 a (by simp)
      obtain ⟨i1, hi1⟩ := hk1 b (by simp)
      simp [evaluate_array_slice_get, resolveOperand, hl, hi1,
        Value.extract_array, Value.extract_integer]
    · obtain ⟨l, hl⟩ := hk0 a (by simp)
      obtain ⟨i1, hi1⟩ := hk1 b (by simp)
      obtain ⟨i2, hi2⟩ := hk2 c' (by simp)
      simp [evaluate_array_slice_get, resolveOperand, hl, hi1, hi2,
        Value.extract_array, Value.extract_integer]
    · simp only [List.length_cons] at h
      omega

/-- Witness for the amended C10: three well-typed operands (an array
and two integers) with the fourth missing — the handler reaches
`values.get(3).unwrap()` and panics. -/
theorem slice_few_operands_witness :
    evaluate_array_slice_get
      (fun n => if n = 0 then some (Value.array []) else some (Value.integer (.witness 0)))
      [0, 1, 2] = .crash :=
  (slice_few_operands_amended
      (fun n => if n = 0 then some (Value.array []) else some (Value.integer (.witness 0)))
      [0, 1, 2] (by decide)).2
    ⟨fun r hr => by simp at hr; subst hr; exact ⟨[], rfl⟩,
     fun r hr => by simp at hr; subst hr; exact ⟨.witness 0, rfl⟩,
     fun r hr => by simp at hr; subst hr; exact ⟨.witness 0, rfl⟩,
     fun r hr => by simp at hr⟩

/-- `readMany_flat` with the count given separately. -/
theorem readMany_flat' (count w : Nat) (xs : List (List Nat)) (r : List Nat)
    (hc : xs.length = count) (h : ∀ x ∈ xs, x.length = w) :
    readMany count w (xs.foldr (fun s a => s ++ a) [] ++ r) = some (xs, r) := by
  subst hc
  exact readMany_flat w xs r h

/-- C6: `transaction_id` is the first 32 bytes of the (BLAKE2s,
abstracted as any 256-bit-output hash `h`) digest of the little-endian
concatenation of all old serial numbers, then all new commitments, then
the memorandum, in that order. -/
theorem transaction_id_spec (h : List Nat → List Nat) (tx : Transaction)
    (hh : ∀ l, (h l).length = 32) :
    transaction_id h tx =
      some ((h (tx.old_serial_numbers.foldr (fun s a => s ++ a) []
        ++ tx.new_commitments.foldr (fun s a => s ++ a) []
        ++ tx.memorandum)).take 32) := by
  have hpre : txPreimage tx
      = tx.old_serial_numbers.foldr (fun s a => s ++ a) []
        ++ tx.new_commitments.foldr (fun s a => s ++ a) []
        ++ tx.memorandum := by
    unfold txPreimage
    rw [foldl_append_eq, foldl_append_eq]
    simp [List.append_assoc]
  unfold transaction_id
  rw [hpre, if_pos (hh _), List.take_of_length_le (le_of_eq (hh _))]

/-- Witness for C6 at a constant-output hash and `txA`. -/
theorem transaction_id_spec_witness :
    transaction_id (fun _ => List.replicate 32 0) txA = some (List.replicate 32 0) := by
  have h := transaction_id_spec (fun _ => List.replicate 32 0) txA
    (fun l => by simp)
  simpa using h

/-- C7: two transactions that differ only in the transaction proof, the
signatures, the program commitment, or the local-data root (all other
fields equal) have the same `transaction_id` and compare equal under the
derived `PartialEq`. -/
theorem transaction_id_eq_invariant (h : List Nat → List Nat) (a b : Transaction)
    (hn : a.network = b.network) (hd : a.ledger_digest = b.ledger_digest)
    (hs : a.old_serial_numbers = b.old_serial_numbers)
    (hc : a.new_commitments = b.new_commitments)
    (hv : a.value_balance = b.value_balance)
    (he : a.encrypted_records = b.encrypted_records)
    (hm : a.memorandum = b.memorandum)
    (hi : a.inner_circuit_id = b.inner_circuit_id) :
    transaction_id h a = transaction_id h b ∧ txEq a b = true := by
  constructor
  · unfold transaction_id txPreimage
    rw [hs, hc, hm]
  · simp [txEq, hn, hd, hs, hc, hv, he, hm, hi]

/-- Witness for C7: `txA` and `txB` differ exactly in the four ignored
fields. -/
theorem transaction_id_eq_invariant_witness :
    transaction_id (fun _ => List.replicate 32 0) txA =
      transaction_id (fun _ => List.replicate 32 0) txB ∧
    txEq txA txB = true :=
  transaction_id_eq_invariant (fun _ => List.replicate 32 0) txA txB
    rfl rfl rfl rfl rfl rfl rfl rfl

/-- C9 (code bug): deserializing from a byte stream too short for the
first old serial number panics through the `unwrap` at line 255 of the
source instead of returning a typed error (shown here on the empty
stream with one input record of one byte). -/
theorem read_le_crashes_on_short_input :
    read_le ⟨1, 1, 1, 1, 1, 1, 1, 1, 1, 1, 1⟩ [] = .crash := by
  decide

/-- `read1` on a non-empty stream. -/
theorem read1_cons (b : Nat) (r : List Nat) : read1 (b :: r) = some (b, r) := rfl

/-- `readMany_flat'` when the flattened blocks end the stream. -/
theorem readMany_flat_nil (count w : Nat) (xs : List (List Nat))
    (hc : xs.length = count) (h : ∀ x ∈ xs, x.length = w) :
    readMany count w (xs.foldr (fun s a => s ++ a) []) = some (xs, []) := by
  have := readMany_flat' count w xs [] hc h
  rwa [List.append_nil] at this

/-- C8: serializing a transaction whose field vectors are sized to the
format with `write_le` and deserializing the produced bytes with
`read_le` reproduces the identical transaction, consuming the whole
stream. -/
theorem transaction_roundtrip (fmt : TxFormat) (tx : Transaction)
    (h : ValidTx fmt tx) :
    read_le fmt (write_le tx) = .ok tx [] := by
  obtain ⟨h1, h2, h3, h4, h5, h6, h7, h8, h9, h10, h11, h12, h13, h14, h15, h16⟩ := h
  have e_net : tx.network % 256 = tx.network := Nat.mod_eq_of_lt h12
  have e_vb : fromBytesLE (toBytesLE 8 tx.value_balance) = tx.value_balance :=
    fromBytesLE_toBytesLE 8 _ (by norm_num at h11 ⊢; omega)
  simp only [write_le, read_le, foldl_append_eq, List.nil_append,
    List.append_assoc, List.singleton_append, List.cons_append, read1_cons,
    readMany_flat' fmt.numInputRecords fmt.snLen tx.old_serial_numbers _ h1 h2,
    readMany_flat' fmt.numOutputRecords fmt.cmLen tx.new_commitments _ h3 h4,
    readN_append 32 tx.memorandum _ h5,
    readN_append fmt.dgLen tx.ledger_digest _ h6,
    readN_append fmt.icLen tx.inner_circuit_id _ h7,
    readN_append fmt.pfLen tx.transaction_proof _ h8,
    readN_append fmt.pcLen tx.program_commitment _ h9,
    readN_append fmt.lrLen tx.local_data_root _ h10,
    readN_append 8 (toBytesLE 8 tx.value_balance) _ (toBytesLE_length 8 _),
    readMany_flat' fmt.numInputRecords fmt.sgLen tx.signatures _ h13 h14,
    readMany_flat_nil fmt.numOutputRecords fmt.erLen tx.encrypted_records h15 h16,
    e_net, e_vb]

/-- Witness for C8 at the concrete transaction `txA` and its format. -/
theorem transaction_roundtrip_witness :
    read_le fmtA (write_le txA) = .ok txA [] :=
  transaction_roundtrip fmtA txA (by decide)
